import Mathlib

/-!
Verification of the arena-backed immutable byte-sequence values of
`vespalib/src/vespa/vespalib/data/slime/basic_value.cpp`.

The source fragment contains the helper `store(Memory, Stash&)` and the
constructors `BasicStringValue::BasicStringValue` and
`BasicDataValue::BasicDataValue`, both of which delegate to `store`.

We embed the byte-addressed memory of the process as a total function
`Heap : Nat → Nat` (addresses to byte values), a `Memory` view as the
(pointer, length) pair of the C++ `vespalib::Memory`, and the `Stash`
arena as a bump allocator.  `Stash` itself is not part of the source
fragment, so it is modelled from the spec (see `Stash` below).
-/

namespace Slime

/-- Byte-addressed process memory: every address holds a byte value. -/
def Heap : Type := Nat → Nat

/-- The `vespalib::Memory` byte view: a non-owning (pointer, length)
pair describing a range of bytes in some heap. -/
structure Memory where
  data : Nat
  size : Nat
deriving Repr, DecidableEq

/-- Modelled from the spec: the `Stash` arena (bump allocator) is not
part of the source fragment under verification.  Per the spec it hands
out stable, never-relocated regions from a bump pointer and never frees
an individual region.  `next` is the first address the arena has not yet
handed out; `log` records the sizes of all allocation requests made so
far, so that the number and sizes of `alloc` calls are observable. -/
structure Stash where
  next : Nat
  log : List Nat
deriving Repr, DecidableEq

/-- Modelled from the spec: `allocate(size)` returns a region of exactly
`size` bytes whose starting address is stable for the arena's lifetime;
a bump allocator hands out `[next, next + size)` and advances `next`. -/
def Stash.alloc (st : Stash) (size : Nat) : Nat × Stash :=
  (st.next, { next := st.next + size, log := st.log ++ [size] })

/-- The C `memcpy(dst, src, n)` on a byte heap: addresses in
`[dst, dst + n)` take the corresponding byte of the source range
`[src, src + n)` (read from the pre-call heap), all other addresses are
untouched. -/
def memcpy (h : Heap) (dst src n : Nat) : Heap :=
  fun a => if dst ≤ a ∧ a < dst + n then h (src + (a - dst)) else h a

/-- Embedding of the anonymous-namespace helper in `basic_value.cpp`:

    Memory store(Memory m, Stash & stash) {
        char * buf = stash.alloc(m.size);
        memcpy(buf, m.data, m.size);
        return Memory(buf, m.size);
    }

It returns the constructed view together with the updated heap and
arena state. -/
def store (m : Memory) (h : Heap) (st : Stash) : Memory × Heap × Stash :=
  let r := st.alloc m.size
  (Memory.mk r.1 m.size, memcpy h r.1 m.data m.size, r.2)

/-- Reading a view's content: the sequence of bytes the heap holds at
addresses `[m.data, m.data + m.size)`. -/
def readMem (h : Heap) (m : Memory) : List Nat :=
  (List.range m.size).map (fun i => h (m.data + i))

/-- `BasicStringValue` from `basic_value.h`/`basic_value.cpp`: a value
tagged as text, holding the single byte view `_value`. -/
structure BasicStringValue where
  _value : Memory
deriving Repr, DecidableEq

/-- `BasicDataValue`: a value tagged as opaque binary data, holding the
single byte view `_value`. -/
structure BasicDataValue where
  _value : Memory
deriving Repr, DecidableEq

/-- `BasicStringValue::BasicStringValue(Memory m, Stash & stash)
    : _value(store(m, stash)) {}` -/
def BasicStringValue.make (m : Memory) (h : Heap) (st : Stash) :
    BasicStringValue × Heap × Stash :=
  let r := store m h st
  (⟨r.1⟩, r.2.1, r.2.2)

/-- `BasicDataValue::BasicDataValue(Memory m, Stash & stash)
    : _value(store(m, stash)) {}` -/
def BasicDataValue.make (m : Memory) (h : Heap) (st : Stash) :
    BasicDataValue × Heap × Stash :=
  let r := store m h st
  (⟨r.1⟩, r.2.1, r.2.2)

/-- A sequence of `store` constructions against one arena, threading the
heap and arena state. -/
def storeSeq (ms : List Memory) (h : Heap) (st : Stash) :
    List Memory × Heap × Stash :=
  match ms with
  | [] => ([], h, st)
  | m :: rest =>
    let r := store m h st
    let q := storeSeq rest r.2.1 r.2.2
    (r.1 :: q.1, q.2.1, q.2.2)

/-- The operations of this core: constructing a text-tagged or a
binary-tagged value.  Nothing else in the fragment touches the heap or
the arena. -/
inductive Op where
  | mkString (m : Memory)
  | mkData (m : Memory)
deriving Repr, DecidableEq

/-- Effect of one core operation on the heap and arena state. -/
def execOp (op : Op) (h : Heap) (st : Stash) : Heap × Stash :=
  match op with
  | .mkString m => ((BasicStringValue.make m h st).2.1, (BasicStringValue.make m h st).2.2)
  | .mkData m => ((BasicDataValue.make m h st).2.1, (BasicDataValue.make m h st).2.2)

/-- Effect of a sequence of core operations. -/
def execOps (ops : List Op) (h : Heap) (st : Stash) : Heap × Stash :=
  match ops with
  | [] => (h, st)
  | op :: rest =>
    let r := execOp op h st
    execOps rest r.1 r.2

/-- Modelled from the spec: the only failure of the arena is an
out-of-memory condition, raised when the host environment cannot supply
a new backing block. -/
inductive AllocError where
  | outOfMemory
deriving Repr, DecidableEq

/-- Modelled from the spec: fallible allocation.  The host's available
memory is an explicit bound `limit`; a request that would push the bump
pointer past it fails with `outOfMemory`, anything else succeeds with
the bump allocation. -/
def Stash.allocE (limit : Nat) (st : Stash) (size : Nat) :
    Except AllocError (Nat × Stash) :=
  if st.next + size ≤ limit then .ok (st.alloc size) else .error .outOfMemory

/-- `store` over the fallible allocator: the allocation's error, if any,
propagates to the caller; after a successful allocation the copy and the
view construction are the infallible steps of `store`. -/
def storeE (limit : Nat) (m : Memory) (h : Heap) (st : Stash) :
    Except AllocError (Memory × Heap × Stash) :=
  match Stash.allocE limit st m.size with
  | .error e => .error e
  | .ok r => .ok (Memory.mk r.1 m.size, memcpy h r.1 m.data m.size, r.2)

/-- A concrete heap used by witnesses: address `a` holds byte `a % 251`. -/
def wHeap : Heap := fun a => a % 251

/-- A concrete heap used by a witness: the heap after `store` of the view
(pointer 0, length 2) over `wHeap` into the arena at bump pointer 10,
with the two bytes of the original source buffer then overwritten. -/
def w3Heap : Heap :=
  fun a => if a < 2 then 99 else (store (Memory.mk 0 2) wHeap (Stash.mk 10 [])).2.1 a

/-- A concrete heap used by a witness: `wHeap` shifted up by two
addresses, so that the view (pointer 2, length 1) over it holds the same
byte as the view (pointer 0, length 1) over `wHeap`. -/
def w10Heap : Heap := fun a => wHeap (a - 2)

end Slime

namespace Slime

/-- `store` never changes the heap below the arena's bump pointer. -/
theorem store_preserves_below (m : Memory) (h : Heap) (st : Stash)
    (a : Nat) (ha : a < st.next) : (store m h st).2.1 a = h a := by
  simp only [store, Stash.alloc, memcpy]
  rw [if_neg]
  omega

/-- The bump pointer never decreases across a `store`. -/
theorem store_next_mono (m : Memory) (h : Heap) (st : Stash) :
    st.next ≤ (store m h st).2.2.next := by
  simp [store, Stash.alloc]

/-- A sequence of `store` constructions never changes the heap below the
arena's bump pointer at the start of the sequence. -/
theorem storeSeq_preserves_below (ms : List Memory) (h : Heap)
    (st : Stash) (a : Nat) (ha : a < st.next) :
    (storeSeq ms h st).2.1 a = h a := by
  induction ms generalizing h st with
  | nil => rfl
  | cons m rest ih =>
    simp only [storeSeq]
    rw [ih (store m h st).2.1 (store m h st).2.2
      (lt_of_lt_of_le ha (store_next_mono m h st))]
    exact store_preserves_below m h st a ha

/-- Reading the view constructed by `store` in the post-`store` heap
yields the bytes the input view denoted in the pre-`store` heap. -/
theorem store_read_eq (m : Memory) (h : Heap) (st : Stash) :
    readMem (store m h st).2.1 (store m h st).1 = readMem h m := by
  simp only [store, readMem, Stash.alloc]
  refine List.map_congr_left ?_
  intro i hi
  rw [List.mem_range] at hi
  simp only [memcpy]
  rw [if_pos ⟨Nat.le_add_right _ _, by omega⟩]
  congr 1
  omega

end Slime

namespace Slime

/-- C1. Content fidelity: for every input byte view `m` (including the
empty one), constructing a value from `m` against an arena and then
reading the stored view's content yields exactly the byte sequence the
input view denoted in the pre-construction heap. -/
theorem content_fidelity_C1 (m : Memory) (h : Heap) (st : Stash) :
    readMem (store m h st).2.1 (store m h st).1 = readMem h m :=
  store_read_eq m h st

/-- C2. The construction algorithm: `store` requests `allocate(m.size)`
from the arena (the bump pointer advances by exactly `m.size` and the
allocation log gains the single entry `m.size`), copies `m.size` bytes
from the source into the returned region byte-for-byte, and stores a
view whose pointer is the returned region and whose length is `m.size`. -/
theorem store_algorithm_C2 (m : Memory) (h : Heap) (st : Stash) :
    (store m h st).1.data = st.next ∧
    (store m h st).1.size = m.size ∧
    (store m h st).2.2.next = st.next + m.size ∧
    (store m h st).2.2.log = st.log ++ [m.size] ∧
    (∀ i, i < m.size → (store m h st).2.1 (st.next + i) = h (m.data + i)) := by
  refine ⟨rfl, rfl, rfl, rfl, ?_⟩
  intro i hi
  simp only [store, Stash.alloc, memcpy]
  rw [if_pos ⟨Nat.le_add_right _ _, by omega⟩]
  congr 1
  omega

/-- Witness for C2 at the concrete input `m = (data 0, size 1)`,
`h = wHeap`, `st = (next 5, empty log)`. -/
theorem store_algorithm_C2_witness :
    (0 : Nat) < 1 ∧
    (store (Memory.mk 0 1) wHeap (Stash.mk 5 [])).2.1 (5 + 0) = wHeap (0 + 0) :=
  ⟨by decide, (store_algorithm_C2 (Memory.mk 0 1) wHeap (Stash.mk 5 [])).2.2.2.2 0 (by decide)⟩

/-- C5. The text-tagged and binary-tagged variants are structurally
identical: from the same input view, heap and arena state,
`BasicStringValue` and `BasicDataValue` construction store the same
view, produce the same heap, and leave the arena in the same state. -/
theorem variants_identical_C5 (m : Memory) (h : Heap) (st : Stash) :
    (BasicStringValue.make m h st).1._value = (BasicDataValue.make m h st).1._value ∧
    (BasicStringValue.make m h st).2.1 = (BasicDataValue.make m h st).2.1 ∧
    (BasicStringValue.make m h st).2.2 = (BasicDataValue.make m h st).2.2 :=
  ⟨rfl, rfl, rfl⟩

end Slime

namespace Slime

/-- C3. Independence from the source: the view constructed by `store`
points only into arena memory (its pointer is the region the arena
returned, lying between the old and the new bump pointer), and whenever
the arena region is disjoint from the caller's buffer, any heap that
differs from the post-construction heap only inside the caller's buffer
yields the same observed content for the value. -/
theorem independence_C3 (m : Memory) (h : Heap) (st : Stash) (h₂ : Heap)
    (hdisj : m.data + m.size ≤ st.next ∨ st.next + m.size ≤ m.data)
    (hagree : ∀ a, ¬ (m.data ≤ a ∧ a < m.data + m.size) →
      h₂ a = (store m h st).2.1 a) :
    readMem h₂ (store m h st).1 = readMem (store m h st).2.1 (store m h st).1 ∧
    (store m h st).1.data = st.next ∧
    (store m h st).1.data + (store m h st).1.size = (store m h st).2.2.next := by
  refine ⟨?_, rfl, rfl⟩
  simp only [readMem]
  refine List.map_congr_left ?_
  intro i hi
  rw [List.mem_range] at hi
  simp only [store, Stash.alloc] at hi ⊢
  exact hagree (st.next + i) (by omega)

/-- Witness for C3 at the concrete input: view (pointer 0, length 2),
heap `wHeap`, arena at bump pointer 10; `w3Heap` overwrites the two
source bytes after construction. -/
theorem independence_C3_witness :
    ((Memory.mk 0 2).data + (Memory.mk 0 2).size ≤ (Stash.mk 10 []).next ∨
      (Stash.mk 10 []).next + (Memory.mk 0 2).size ≤ (Memory.mk 0 2).data) ∧
    readMem w3Heap (store (Memory.mk 0 2) wHeap (Stash.mk 10 [])).1 =
      readMem (store (Memory.mk 0 2) wHeap (Stash.mk 10 [])).2.1
        (store (Memory.mk 0 2) wHeap (Stash.mk 10 [])).1 :=
  ⟨Or.inl (by decide),
    (independence_C3 (Memory.mk 0 2) wHeap (Stash.mk 10 []) w3Heap
      (Or.inl (by decide))
      (by
        intro a ha
        have h2 : ¬ a < 2 := fun hlt => ha ⟨Nat.zero_le a, hlt⟩
        simp [w3Heap, h2])).1⟩

/-- C4. Zero-length handling: a zero-length input yields a stored view
of length zero whose pointer is the arena's current region; the arena is
still asked for an allocation of size 0 (the log records it), the heap
is unchanged (no byte copied), and no byte of any heap is read — the
observed content is empty whatever the heap holds. -/
theorem zero_length_C4 (m : Memory) (h : Heap) (st : Stash)
    (hz : m.size = 0) :
    (store m h st).1.size = 0 ∧
    (store m h st).2.1 = h ∧
    (store m h st).2.2.log = st.log ++ [0] ∧
    (store m h st).1.data = st.next ∧
    (∀ h' : Heap, readMem (store m h' st).2.1 (store m h' st).1 = []) := by
  refine ⟨hz, ?_, by rw [← hz]; rfl, rfl, ?_⟩
  · funext a
    simp only [store, Stash.alloc, memcpy, hz]
    rw [if_neg]
    omega
  · intro h'
    simp [store, readMem, hz]

/-- Witness for C4 at the concrete input: view (pointer 3, length 0),
heap `wHeap`, arena at bump pointer 7 with an empty log. -/
theorem zero_length_C4_witness :
    (Memory.mk 3 0).size = 0 ∧
    (store (Memory.mk 3 0) wHeap (Stash.mk 7 [])).2.2.log = [0] := by
  have h := zero_length_C4 (Memory.mk 3 0) wHeap (Stash.mk 7 []) rfl
  exact ⟨rfl, by simpa using h.2.2.1⟩

/-- C6. Stability under further allocation: after a first value is
constructed, constructing any further sequence of values from the
resulting arena leaves the first value's observed content unchanged, and
its stored pointer is the region granted at its own construction (the
value object itself is never touched again, so its address field is
unchanged by definition). -/
theorem stability_C6 (m1 : Memory) (ms : List Memory) (h : Heap)
    (st : Stash) :
    readMem (storeSeq ms (store m1 h st).2.1 (store m1 h st).2.2).2.1
        (store m1 h st).1 =
      readMem (store m1 h st).2.1 (store m1 h st).1 ∧
    (store m1 h st).1.data = st.next := by
  refine ⟨?_, rfl⟩
  simp only [readMem]
  refine List.map_congr_left ?_
  intro i hi
  rw [List.mem_range] at hi
  apply storeSeq_preserves_below
  simp only [store, Stash.alloc] at hi ⊢
  omega

end Slime

namespace Slime

/-- C7. Error handling: value construction over the fallible allocator
either fails with the allocator's out-of-memory error (exactly when the
allocation itself fails, so the error propagates unswallowed and no
retry occurs) or succeeds and produces exactly the result of the
infallible `store` — once the region is obtained, the copy and the view
construction cannot fail, and no error kind other than `outOfMemory`
exists. -/
theorem error_handling_C7 (limit : Nat) (m : Memory) (h : Heap)
    (st : Stash) :
    (storeE limit m h st = .error .outOfMemory ↔
      Stash.allocE limit st m.size = .error .outOfMemory) ∧
    (storeE limit m h st = .ok (store m h st) ∨
      storeE limit m h st = .error .outOfMemory) := by
  simp only [storeE, Stash.allocE]
  split_ifs with hc <;> simp [store, Stash.alloc]

/-- `execOp` never changes the heap below the arena's bump pointer. -/
theorem execOp_preserves_below (op : Op) (h : Heap) (st : Stash)
    (a : Nat) (ha : a < st.next) : (execOp op h st).1 a = h a := by
  cases op with
  | mkString m => exact store_preserves_below m h st a ha
  | mkData m => exact store_preserves_below m h st a ha

/-- The bump pointer never decreases across an `execOp`. -/
theorem execOp_next_mono (op : Op) (h : Heap) (st : Stash) :
    st.next ≤ (execOp op h st).2.next := by
  cases op with
  | mkString m => exact store_next_mono m h st
  | mkData m => exact store_next_mono m h st

/-- A sequence of core operations never changes the heap below the
arena's bump pointer at the start of the sequence. -/
theorem execOps_preserves_below (ops : List Op) (h : Heap) (st : Stash)
    (a : Nat) (ha : a < st.next) : (execOps ops h st).1 a = h a := by
  induction ops generalizing h st with
  | nil => rfl
  | cons op rest ih =>
    simp only [execOps]
    rw [ih (execOp op h st).1 (execOp op h st).2
      (lt_of_lt_of_le ha (execOp_next_mono op h st))]
    exact execOp_preserves_below op h st a ha

/-- C8. Immutability of stored content: for any view lying entirely in
already-granted arena memory, no sequence of the core's operations
(constructing further text- or binary-tagged values) changes the bytes
it denotes, and two reads of the same state trivially agree — the model
has no operation that writes to a granted region. -/
theorem immutability_C8 (v : Memory) (ops : List Op) (h : Heap)
    (st : Stash) (hv : v.data + v.size ≤ st.next) :
    readMem (execOps ops h st).1 v = readMem h v ∧
    readMem (execOps ops h st).1 v = readMem (execOps ops h st).1 v := by
  refine ⟨?_, rfl⟩
  simp only [readMem]
  refine List.map_congr_left ?_
  intro i hi
  rw [List.mem_range] at hi
  exact execOps_preserves_below ops h st (v.data + i) (by omega)

/-- Witness for C8 at the concrete input: the view (pointer 0, length 2)
over `wHeap`, arena at bump pointer 5, followed by one text-value and
one data-value construction. -/
theorem immutability_C8_witness :
    (Memory.mk 0 2).data + (Memory.mk 0 2).size ≤ (Stash.mk 5 []).next ∧
    readMem (execOps [Op.mkString (Memory.mk 0 1), Op.mkData (Memory.mk 1 1)]
        wHeap (Stash.mk 5 [])).1 (Memory.mk 0 2) =
      readMem wHeap (Memory.mk 0 2) :=
  ⟨by decide,
    (immutability_C8 (Memory.mk 0 2)
      [Op.mkString (Memory.mk 0 1), Op.mkData (Memory.mk 1 1)]
      wHeap (Stash.mk 5 []) (by decide)).1⟩

/-- C9. The source buffer is only read, never written: when the arena
region granted for the copy is disjoint from the caller's buffer, every
byte of the caller's buffer is unchanged by `store` and by both value
constructors. -/
theorem source_unchanged_C9 (m : Memory) (h : Heap) (st : Stash)
    (hdisj : m.data + m.size ≤ st.next ∨ st.next + m.size ≤ m.data) :
    (∀ i, i < m.size → (store m h st).2.1 (m.data + i) = h (m.data + i)) ∧
    (∀ i, i < m.size →
      (BasicStringValue.make m h st).2.1 (m.data + i) = h (m.data + i)) ∧
    (∀ i, i < m.size →
      (BasicDataValue.make m h st).2.1 (m.data + i) = h (m.data + i)) := by
  have hmain : ∀ i, i < m.size →
      (store m h st).2.1 (m.data + i) = h (m.data + i) := by
    intro i hi
    simp only [store, Stash.alloc, memcpy]
    rw [if_neg]
    omega
  exact ⟨hmain, hmain, hmain⟩

/-- Witness for C9 at the concrete input: view (pointer 0, length 2),
heap `wHeap`, arena at bump pointer 10. -/
theorem source_unchanged_C9_witness :
    ((Memory.mk 0 2).data + (Memory.mk 0 2).size ≤ (Stash.mk 10 []).next ∨
      (Stash.mk 10 []).next + (Memory.mk 0 2).size ≤ (Memory.mk 0 2).data) ∧
    (1 : Nat) < 2 ∧
    (store (Memory.mk 0 2) wHeap (Stash.mk 10 [])).2.1 (0 + 1) = wHeap (0 + 1) :=
  ⟨Or.inl (by decide), by decide,
    (source_unchanged_C9 (Memory.mk 0 2) wHeap (Stash.mk 10 [])
      (Or.inl (by decide))).1 1 (by decide)⟩

/-- C10. Determinism and allocation count: construction issues exactly
one allocation request, of exactly the input's size (the arena's log
grows by that single entry); and the stored content is a function of the
input bytes and the arena state alone — two constructions whose input
views denote the same byte sequence, run against the same arena state,
produce views with identical stored content. -/
theorem determinism_C10 (m₁ m₂ : Memory) (h₁ h₂ : Heap) (st : Stash)
    (hsz : m₁.size = m₂.size)
    (hbytes : ∀ i, i < m₁.size → h₁ (m₁.data + i) = h₂ (m₂.data + i)) :
    readMem (store m₁ h₁ st).2.1 (store m₁ h₁ st).1 =
      readMem (store m₂ h₂ st).2.1 (store m₂ h₂ st).1 ∧
    (store m₁ h₁ st).2.2.log = st.log ++ [m₁.size] ∧
    (store m₁ h₁ st).1 = (store m₂ h₂ st).1 := by
  refine ⟨?_, rfl, ?_⟩
  · rw [store_read_eq, store_read_eq]
    simp only [readMem, ← hsz]
    exact List.map_congr_left (fun i hi => hbytes i (List.mem_range.mp hi))
  · simp [store, Stash.alloc, hsz]

/-- Witness for C10 at the concrete inputs: views (pointer 0, length 1)
over `wHeap` and (pointer 2, length 1) over `w10Heap` denote the same
single byte; both constructions run against the arena at bump pointer
5. -/
theorem determinism_C10_witness :
    (Memory.mk 0 1).size = (Memory.mk 2 1).size ∧
    readMem (store (Memory.mk 0 1) wHeap (Stash.mk 5 [])).2.1
        (store (Memory.mk 0 1) wHeap (Stash.mk 5 [])).1 =
      readMem (store (Memory.mk 2 1) w10Heap (Stash.mk 5 [])).2.1
        (store (Memory.mk 2 1) w10Heap (Stash.mk 5 [])).1 :=
  ⟨rfl,
    (determinism_C10 (Memory.mk 0 1) (Memory.mk 2 1) wHeap w10Heap
      (Stash.mk 5 []) rfl
      (by
        intro i hi
        have h0 : i = 0 := Nat.lt_one_iff.mp hi
        subst h0
        rfl)).1⟩

end Slime
